import Mathlib

/-!
Verification of the agenda-bot event notifier (src/main.py) against its
natural-language specification.

Shallow embedding conventions:
- Instants are modelled as integers counting microseconds on one absolute,
  comparable axis (Python datetimes are all normalized to the operating
  timezone before comparison, so a single axis is faithful for every
  comparison the code performs).
- An icalendar time value is either date-only (a day index) or a date-time
  (an instant); this mirrors the duck-typed branching on the presence of a
  date() method in is_event_current.
- The persisted ledger (sent_events.json) is a finite map from event id to
  timestamp, modelled as a list of pairs.
- Python hash(str(event)) is salted per process, so it is modelled as an
  oracle parameter (VEvent to Int): one oracle per process run.
- The network outcome of a Discord dispatch is modelled as an oracle from the
  dispatched event id to Bool; the code swallows every dispatch exception, so
  the outcome is recorded in a log but never influences control flow.
-/

/-- A calendar time value: date-only (day index since some epoch) or a
date-time instant in microseconds on the absolute axis. -/
inductive CalTime where
  | date (d : Int)
  | dateTime (t : Int)
deriving DecidableEq, Repr

/-- One VEVENT component, with the fields main.py reads: uid, summary,
dtstart, dtend (each of the latter two optional). -/
structure VEvent where
  uid : String
  summary : String
  dtstart : Option CalTime
  dtend : Option CalTime
deriving DecidableEq, Repr

def microsecondsPerHour : Int := 3600000000

def microsecondsPerDay : Int := 86400000000

/-- Local midnight of a day: datetime.combine(d, datetime.min.time()). -/
def startOfDayMicro (d : Int) : Int := d * microsecondsPerDay

/-- Local end of day 23:59:59.999999: datetime.combine(d, datetime.max.time()). -/
def endOfDayMicro (d : Int) : Int := d * microsecondsPerDay + (microsecondsPerDay - 1)

/-- Python start_dt + timedelta(hours=1): on a date the one-hour delta is
dropped (date arithmetic keeps only whole days), on a datetime it adds an
hour. -/
def addOneHour : CalTime → CalTime
  | .date d => .date d
  | .dateTime t => .dateTime (t + microsecondsPerHour)

/-- Embedding of str(dtstart.dt): the raw textual rendering of a calendar
time value, injective per constructor as Python str is on these types. -/
def strOfCalTime : CalTime → String
  | .date d => "date " ++ toString d
  | .dateTime t => "datetime " ++ toString t

/-- AutonomieNotifier.is_event_current (src/main.py lines 98-147).
now is the current instant. When dtstart is absent the function returns
False. end_dt starts as dtend.dt when present, else start + 1 hour. When
start_dt is date-only (no date() attribute), start_time becomes local
midnight of that day and end_dt is overwritten with local end of day of the
start date. Otherwise end_dt is normalized: a date-time stays an instant, a
date-only end becomes local end of day of that date. Returns
start_time <= now <= end_time. -/
def is_event_current (ev : VEvent) (now : Int) : Bool :=
  match ev.dtstart with
  | none => false
  | some start_dt =>
    let end_dt : CalTime :=
      match ev.dtend with
      | some e => e
      | none => addOneHour start_dt
    match start_dt with
    | .dateTime ts =>
      let start_time : Int := ts
      let end_time : Int :=
        match end_dt with
        | .dateTime te => te
        | .date de => endOfDayMicro de
      decide (start_time ≤ now) && decide (now ≤ end_time)
    | .date d =>
      let start_time : Int := startOfDayMicro d
      let end_time : Int := endOfDayMicro d
      decide (start_time ≤ now) && decide (now ≤ end_time)

/-- AutonomieNotifier.create_event_id (src/main.py lines 149-166).
pyhash models the per-process salted value of hash(str(event)). -/
def create_event_id (pyhash : VEvent → Int) (ev : VEvent)
    (calendar_name : String) : String :=
  if ev.uid ≠ "" then
    calendar_name ++ "_" ++ ev.uid
  else
    match ev.dtstart with
    | some s => calendar_name ++ "_" ++ ev.summary ++ "_" ++ strOfCalTime s
    | none => calendar_name ++ "_" ++ ev.summary ++ "_" ++ toString (pyhash ev)

/-- AutonomieNotifier.get_calendar_name (src/main.py lines 92-96):
str(calendar.get("X-WR-CALNAME", "Agenda")). -/
def get_calendar_name (calname : Option String) : String :=
  match calname with
  | some n => n
  | none => "Agenda"

/-- AutonomieNotifier.save_sent_events (src/main.py lines 69-75): every key
in the set is written with the current timestamp. -/
def save_sent_events (events : List String) (now : Int) : List (String × Int) :=
  events.map (fun k => (k, now))

/-- AutonomieNotifier.load_sent_events (src/main.py lines 46-67): keep the
entries whose timestamp is strictly newer than now minus one day; if any
entry was dropped, persist the pruned key set back (with fresh timestamps,
per save_sent_events); return the surviving keys together with the resulting
persisted store. -/
def load_sent_events (store : List (String × Int)) (now : Int) :
    List String × List (String × Int) :=
  let cutoff := now - microsecondsPerDay
  let cleaned := store.filter (fun p => decide (cutoff < p.2))
  if cleaned.length ≠ store.length then
    (cleaned.map Prod.fst, save_sent_events (cleaned.map Prod.fst) now)
  else
    (cleaned.map Prod.fst, store)

/-- self.sent_events.add(event_id) (src/main.py line 242), on the list model
of the in-memory set. -/
def recordEvent (sent : List String) (k : String) : List String :=
  if k ∈ sent then sent else k :: sent

/-- Python str.split(",") helper: accumulate characters until a comma. -/
def splitAux : List Char → List Char → List String
  | [], acc => [String.mk acc.reverse]
  | c :: rest, acc =>
    if c = ',' then String.mk acc.reverse :: splitAux rest []
    else splitAux rest (c :: acc)

/-- Python str.split(","): always returns a non-empty list; on the empty
string it returns a list holding one empty string. -/
def pySplitComma (s : String) : List String := splitAux s.data []

/-- Python str.lower() restricted to the ASCII range the code relies on. -/
def pyToLower (s : String) : String := String.mk (s.data.map Char.toLower)

/-- Python substring containment, needle in hay. -/
def containsSub (needle : List Char) : List Char → Bool
  | [] => needle.isEmpty
  | h :: t => needle.isPrefixOf (h :: t) || containsSub needle t

/-- The startup mandatory-value check of AutonomieNotifier.__init__
(src/main.py lines 22-29): returns true when the ValueError is raised.
ical_urls is os.getenv("ICAL_URL", "").split(","), webhook is
os.getenv("DISCORD_WEBHOOK_URL"); the guard is
(not self.ical_urls or not self.discord_webhook), where a missing webhook is
None and both None and the empty string are falsy. -/
def initRaises (icalUrlEnv webhookEnv : Option String) : Bool :=
  let ical_urls := pySplitComma (icalUrlEnv.getD "")
  let discord_webhook := webhookEnv.getD ""
  ical_urls.isEmpty || discord_webhook == ""

/-- The keyword filter of check_autonomie_events (src/main.py lines
213-215): "autonomie" in summary.lower(). -/
def matchesKeyword (summary : String) : Bool :=
  containsSub "autonomie".data (pyToLower summary).data

/-- An event passes the filters of the VEVENT loop: keyword match (line
214) and currently active (line 221). -/
def qualifies (now : Int) (ev : VEvent) : Bool :=
  matchesKeyword ev.summary && is_event_current ev now

/-- The VEVENT loop of check_autonomie_events (src/main.py lines 209-243)
over one fetched calendar: for each event, skip unless the keyword matches
and the event is current; derive its id; skip when the id is already in the
sent set; otherwise dispatch (send_discord_message swallows every exception,
so the outcome ok k is only logged and never branches), add the id to the
sent set and continue. Returns the final sent set and the dispatch log as
(event id, dispatch outcome) pairs in order. -/
def runCycle (ok : String → Bool) (pyh : VEvent → Int) (now : Int)
    (name : String) : List String → List VEvent →
    List String × List (String × Bool)
  | sent, [] => (sent, [])
  | sent, ev :: rest =>
    if qualifies now ev then
      if create_event_id pyh ev name ∈ sent then
        runCycle ok pyh now name sent rest
      else
        ((runCycle ok pyh now name (create_event_id pyh ev name :: sent)
            rest).1,
         (create_event_id pyh ev name, ok (create_event_id pyh ev name)) ::
           (runCycle ok pyh now name (create_event_id pyh ev name :: sent)
             rest).2)
    else runCycle ok pyh now name sent rest

/-- Claim C3 as stated, modelled from the spec wording: absent start means
not current; otherwise current exactly when start <= now <= end, where a
missing end defaults to start plus one hour when the start has a time
component and to local end of day of the start date when the start is
date-only; a present date-only end is read as local end of day of that end
date. Written for comparison with is_event_current. -/
def specC3_is_current (ev : VEvent) (now : Int) : Bool :=
  match ev.dtstart with
  | none => false
  | some s =>
    let startT : Int :=
      match s with
      | .date d => startOfDayMicro d
      | .dateTime t => t
    let endT : Int :=
      match ev.dtend with
      | some (.dateTime te) => te
      | some (.date de) => endOfDayMicro de
      | none =>
        match s with
        | .dateTime t => t + microsecondsPerHour
        | .date d => endOfDayMicro d
    decide (startT ≤ now) && decide (now ≤ endT)

/-- The amended classifier contract, modelled from the amended claim: absent
start means not current; a date-only start forces the window to the whole
start day (any provided end is ignored); a date-time start gives current iff
start <= now <= end, where a missing end defaults to start plus one hour and
a date-only end is read as local end of day of that end date. -/
def amendedC3_is_current (ev : VEvent) (now : Int) : Bool :=
  match ev.dtstart with
  | none => false
  | some (.date d) =>
    decide (startOfDayMicro d ≤ now) && decide (now ≤ endOfDayMicro d)
  | some (.dateTime t) =>
    let endT : Int :=
      match ev.dtend with
      | none => t + microsecondsPerHour
      | some (.dateTime te) => te
      | some (.date de) => endOfDayMicro de
    decide (t ≤ now) && decide (now ≤ endT)

theorem mem_recordEvent (sent : List String) (k : String) :
    k ∈ recordEvent sent k := by
  unfold recordEvent
  split
  · assumption
  · exact List.mem_cons_self k sent

theorem load_fst_eq (store : List (String × Int)) (now : Int) :
    (load_sent_events store now).1
      = (store.filter
          (fun p => decide (now - microsecondsPerDay < p.2))).map Prod.fst := by
  unfold load_sent_events
  dsimp only
  split <;> rfl

theorem load_mem_iff (store : List (String × Int)) (now : Int) (k : String) :
    k ∈ (load_sent_events store now).1 ↔
      ∃ ts : Int, (k, ts) ∈ store ∧ now - ts < microsecondsPerDay := by
  rw [load_fst_eq]
  simp only [List.mem_map, List.mem_filter, decide_eq_true_eq]
  constructor
  · rintro ⟨⟨a, b⟩, ⟨hmem, hb⟩, rfl⟩
    exact ⟨b, hmem, by omega⟩
  · rintro ⟨ts, hmem, hts⟩
    exact ⟨⟨k, ts⟩, ⟨hmem, by omega⟩, rfl⟩

theorem length_filter_ne_of_dropped {α : Type} (p : α → Bool) :
    ∀ l : List α, (∃ x ∈ l, ¬ p x) → (l.filter p).length ≠ l.length := by
  intro l h
  induction l with
  | nil => simp at h
  | cons a t ih =>
    obtain ⟨x, hx, hpx⟩ := h
    rcases List.mem_cons.mp hx with rfl | hxt
    · rw [List.filter_cons, if_neg (by simpa using hpx)]
      have := List.length_filter_le p t
      simp only [List.length_cons]
      omega
    · rw [List.filter_cons]
      split
      · simp only [List.length_cons]
        intro hc
        exact ih ⟨x, hxt, hpx⟩ (by omega)
      · have := List.length_filter_le p t
        simp only [List.length_cons]
        omega

/-- C2: once a key has been recorded into the sent set and the set has been
flushed at time tsave, a load at any time tload within the 24 hour retention
window (tload - tsave < one day) returns a key set containing that key. -/
theorem claim_C2_record_flush_load (sent : List String) (k : String)
    (tsave tload : Int) (hwin : tload - tsave < microsecondsPerDay) :
    k ∈ (load_sent_events (save_sent_events (recordEvent sent k) tsave)
          tload).1 := by
  refine (load_mem_iff _ _ _).mpr ⟨tsave, ?_, by omega⟩
  unfold save_sent_events
  exact List.mem_map.mpr ⟨k, mem_recordEvent sent k, rfl⟩

theorem claim_C2_witness :
    (0 : Int) - 1 < microsecondsPerDay ∧
      "k1" ∈ (load_sent_events (save_sent_events (recordEvent [] "k1") 1)
        0).1 :=
  ⟨by decide, claim_C2_record_flush_load [] "k1" 1 0 (by decide)⟩

/-- C7: load returns exactly the keys whose recorded timestamp is within 24
hours of the current time, and whenever some entry was dropped the pruned
key set is persisted back. -/
theorem claim_C7_load_prunes (store : List (String × Int)) (now : Int) :
    (∀ k : String, k ∈ (load_sent_events store now).1 ↔
        ∃ ts : Int, (k, ts) ∈ store ∧ now - ts < microsecondsPerDay) ∧
      ((∃ p ∈ store, ¬ (now - p.2 < microsecondsPerDay)) →
        (load_sent_events store now).2.map Prod.fst
          = (load_sent_events store now).1) := by
  constructor
  · exact fun k => load_mem_iff store now k
  · intro hdrop
    have hne : (store.filter
        (fun p => decide (now - microsecondsPerDay < p.2))).length
          ≠ store.length := by
      refine length_filter_ne_of_dropped _ store ?_
      obtain ⟨p, hp, hcond⟩ := hdrop
      exact ⟨p, hp, by simpa using by omega⟩
    unfold load_sent_events
    rw [if_pos hne]
    unfold save_sent_events
    simp

theorem claim_C7_witness :
    ("a" ∈ (load_sent_events [("a", 100), ("b", -microsecondsPerDay)] 50).1) ∧
      (load_sent_events [("a", 100), ("b", -microsecondsPerDay)] 50).2.map
          Prod.fst
        = (load_sent_events [("a", 100), ("b", -microsecondsPerDay)] 50).1 :=
  ⟨(claim_C7_load_prunes _ 50).1 "a" |>.mpr ⟨100, by decide, by decide⟩,
   (claim_C7_load_prunes _ 50).2
     ⟨("b", -microsecondsPerDay), by decide, by decide⟩⟩

/-- C3 counterexample: an occurrence with a date-only start (day 0) and a
provided date-time end on day 2 is, at an instant on day 1, inside the
claimed window (start <= now <= end) yet the code classifies it as not
current, because a date-only start makes the code overwrite the provided end
with end of day of the start date. -/
theorem claim_C3_counterexample :
    specC3_is_current
        ⟨"u", "x", some (.date 0), some (.dateTime (2 * microsecondsPerDay))⟩
        (microsecondsPerDay + microsecondsPerHour) = true ∧
      is_event_current
        ⟨"u", "x", some (.date 0), some (.dateTime (2 * microsecondsPerDay))⟩
        (microsecondsPerDay + microsecondsPerHour) = false := by
  decide

/-- C3 amended: absent start means not current; a date-only start forces the
window to the whole start day, ignoring any provided end; a date-time start
is current iff start <= now <= end, with a missing end defaulting to start
plus one hour and a date-only end read as local end of day of that end
date. -/
theorem claim_C3_window (ev : VEvent) (now : Int) :
    is_event_current ev now = amendedC3_is_current ev now := by
  obtain ⟨u, s, st, en⟩ := ev
  cases st with
  | none => rfl
  | some c =>
    cases c with
    | date d =>
      cases en with
      | none => rfl
      | some e => cases e <;> rfl
    | dateTime t =>
      cases en with
      | none => rfl
      | some e => cases e <;> rfl

/-- C10 counterexample: an occurrence whose start and end are both date-only
(start day 0, end day 1) is not classified current at noon of its end date,
because the date-only start makes the code use end of day of the start date;
the stated claim would classify any instant of the end date as current. -/
theorem claim_C10_counterexample :
    is_event_current ⟨"u", "y", some (.date 0), some (.date 1)⟩
        (microsecondsPerDay + microsecondsPerHour) = false ∧
      startOfDayMicro 1 ≤ microsecondsPerDay + microsecondsPerHour ∧
      microsecondsPerDay + microsecondsPerHour ≤ endOfDayMicro 1 := by
  decide

/-- C10 amended: for an occurrence whose start has a time component and
whose end is present but date-only, the window end is the local end of day
23:59:59.999999 of that end date, inclusive. -/
theorem claim_C10_date_only_end (u s : String) (t d now : Int) :
    is_event_current ⟨u, s, some (.dateTime t), some (.date d)⟩ now
      = (decide (t ≤ now) && decide (now ≤ endOfDayMicro d)) := rfl

/-- C4 counterexample: for an occurrence lacking both a provider uid and a
start, the key depends on the per-process salted hash oracle, so two runs
with different salts derive different keys. -/
theorem claim_C4_counterexample :
    create_event_id (fun _ => 0) ⟨"", "t", none, none⟩ "cal"
      ≠ create_event_id (fun _ => 1) ⟨"", "t", none, none⟩ "cal" := by
  decide

/-- C4 amended: key derivation is a pure function of the occurrence fields
and the calendar name, independent of the per-process hash salt, for every
occurrence that has a provider uid or a start; only the fallback for
occurrences lacking both relies on the salted hash. -/
theorem claim_C4_deterministic (h1 h2 : VEvent → Int) (ev : VEvent)
    (name : String) (hdet : ev.uid ≠ "" ∨ ev.dtstart.isSome) :
    create_event_id h1 ev name = create_event_id h2 ev name := by
  unfold create_event_id
  rcases hdet with h | h
  · rw [if_pos h, if_pos h]
  · by_cases hu : ev.uid = ""
    · rw [if_neg (by simpa using hu), if_neg (by simpa using hu)]
      cases hst : ev.dtstart with
      | some s => rfl
      | none => rw [hst] at h; simp at h
    · rw [if_pos hu, if_pos hu]

theorem claim_C4_witness :
    ((⟨"u1", "t", none, none⟩ : VEvent).uid ≠ ""
        ∨ (⟨"u1", "t", none, none⟩ : VEvent).dtstart.isSome) ∧
      create_event_id (fun _ => 0) ⟨"u1", "t", none, none⟩ "cal"
        = create_event_id (fun _ => 7) ⟨"u1", "t", none, none⟩ "cal" :=
  ⟨Or.inl (by decide),
   claim_C4_deterministic (fun _ => 0) (fun _ => 7) ⟨"u1", "t", none, none⟩
     "cal" (Or.inl (by decide))⟩

/-- C5: for every occurrence carrying a start (the spec data model makes the
start mandatory), the derived key is calendar name, underscore, uid when the
uid is non-empty, and calendar name, underscore, title, underscore, raw
start rendering otherwise; and any two occurrences with the same non-empty
uid derive the same key under the same calendar name. -/
theorem claim_C5_key_shape (pyh : VEvent → Int) (ev : VEvent) (name : String)
    (s : CalTime) (hs : ev.dtstart = some s) :
    (ev.uid ≠ "" → create_event_id pyh ev name = name ++ "_" ++ ev.uid) ∧
      (ev.uid = "" → create_event_id pyh ev name
        = name ++ "_" ++ ev.summary ++ "_" ++ strOfCalTime s) ∧
      (∀ ev2 : VEvent, ev2.uid = ev.uid → ev.uid ≠ "" →
        create_event_id pyh ev2 name = create_event_id pyh ev name) := by
  refine ⟨fun hu => ?_, fun hu => ?_, fun ev2 h2 hu => ?_⟩
  · unfold create_event_id
    rw [if_pos hu]
  · unfold create_event_id
    rw [if_neg (by simpa using hu), hs]
  · unfold create_event_id
    rw [if_pos hu, if_pos (h2 ▸ hu), h2]

theorem claim_C5_witness :
    ((⟨"", "T", some (.date 5), none⟩ : VEvent).dtstart = some (.date 5)) ∧
      create_event_id (fun _ => 0) ⟨"", "T", some (.date 5), none⟩ "cal"
        = "cal" ++ "_" ++ "T" ++ "_" ++ strOfCalTime (.date 5) :=
  ⟨rfl,
   (claim_C5_key_shape (fun _ => 0) ⟨"", "T", some (.date 5), none⟩ "cal"
     (.date 5) rfl).2.1 rfl⟩

/-- C6: evaluation of the startup check at the failing environment. With
ICAL_URL missing and a webhook present, the constructor does not raise: the
empty default splits into a list holding one empty string, which is truthy,
so the mandatory-value guard passes. With the webhook missing it does
raise. -/
theorem claim_C6_startup_check :
    initRaises none (some "https://discord.example/webhook") = false ∧
      initRaises (some "https://calendar.example/a.ics") none = true ∧
      pySplitComma "" = [""] := by
  decide

/-- C9 counterexample: a calendar without the X-WR-CALNAME field is not
named with the claimed default. -/
theorem claim_C9_counterexample :
    get_calendar_name none ≠ "Agenda inconnu" := by
  decide

/-- C9 amended: the default source name for a calendar whose metadata lacks
a calendar-name field is "Agenda". -/
theorem claim_C9_default_name : get_calendar_name none = "Agenda" := rfl

theorem runCycle_sent_mono (ok : String → Bool) (pyh : VEvent → Int)
    (now : Int) (name : String) (feed : List VEvent) :
    ∀ (sent : List String) (k : String), k ∈ sent →
      k ∈ (runCycle ok pyh now name sent feed).1 := by
  induction feed with
  | nil =>
    intro sent k hk
    simpa [runCycle] using hk
  | cons ev rest ih =>
    intro sent k hk
    unfold runCycle
    split
    · split
      · exact ih sent k hk
      · exact ih _ k (List.mem_cons_of_mem _ hk)
    · exact ih sent k hk

theorem runCycle_log_not_sent (ok : String → Bool) (pyh : VEvent → Int)
    (now : Int) (name : String) (feed : List VEvent) :
    ∀ (sent : List String) (k : String) (b : Bool), k ∈ sent →
      (k, b) ∉ (runCycle ok pyh now name sent feed).2 := by
  induction feed with
  | nil =>
    intro sent k b _ hmem
    simp [runCycle] at hmem
  | cons ev rest ih =>
    intro sent k b hk hmem
    unfold runCycle at hmem
    split at hmem
    · split at hmem
      · exact ih sent k b hk hmem
      · rcases List.mem_cons.mp hmem with heq | htail
        · rename_i hnot
          have : k = create_event_id pyh ev name := congrArg Prod.fst heq
          exact hnot (this ▸ hk)
        · exact ih _ k b (List.mem_cons_of_mem _ hk) htail
    · exact ih sent k b hk hmem

theorem runCycle_log_in_sent (ok : String → Bool) (pyh : VEvent → Int)
    (now : Int) (name : String) (feed : List VEvent) :
    ∀ (sent : List String) (k : String) (b : Bool),
      (k, b) ∈ (runCycle ok pyh now name sent feed).2 →
      k ∈ (runCycle ok pyh now name sent feed).1 := by
  induction feed with
  | nil =>
    intro sent k b hmem
    simp [runCycle] at hmem
  | cons ev rest ih =>
    intro sent k b hmem
    unfold runCycle at hmem ⊢
    split at hmem
    · rename_i hq
      rw [if_pos hq]
      split at hmem
      · rename_i hin
        rw [if_pos hin]
        exact ih sent k b hmem
      · rename_i hin
        rw [if_neg hin]
        rcases List.mem_cons.mp hmem with heq | htail
        · have : k = create_event_id pyh ev name := congrArg Prod.fst heq
          exact this ▸ runCycle_sent_mono ok pyh now name rest _ _
            (List.mem_cons_self _ sent)
        · exact ih _ k b htail
    · rename_i hq
      rw [if_neg hq]
      exact ih sent k b hmem

theorem runCycle_log_nil (ok : String → Bool) (pyh : VEvent → Int)
    (now : Int) (name : String) :
    ∀ (feed : List VEvent), feed.filter (fun e => qualifies now e) = [] →
      ∀ sent : List String, (runCycle ok pyh now name sent feed).2 = [] := by
  intro feed
  induction feed with
  | nil =>
    intro _ sent
    simp [runCycle]
  | cons ev rest ih =>
    intro hfil sent
    rw [List.filter_cons] at hfil
    unfold runCycle
    split
    · rename_i hq
      rw [if_pos (by simpa using hq)] at hfil
      simp at hfil
    · rename_i hq
      rw [if_neg (by simpa using hq)] at hfil
      exact ih hfil sent

theorem runCycle_single (ok : String → Bool) (pyh : VEvent → Int)
    (now : Int) (name : String) (ev : VEvent) :
    ∀ (feed : List VEvent),
      feed.filter (fun e => qualifies now e) = [ev] →
      ∀ sent : List String,
        (create_event_id pyh ev name ∉ sent →
          (runCycle ok pyh now name sent feed).2
            = [(create_event_id pyh ev name,
                ok (create_event_id pyh ev name))] ∧
          create_event_id pyh ev name
            ∈ (runCycle ok pyh now name sent feed).1) ∧
        (create_event_id pyh ev name ∈ sent →
          (runCycle ok pyh now name sent feed).2 = []) := by
  intro feed
  induction feed with
  | nil =>
    intro hfil
    simp at hfil
  | cons hd rest ih =>
    intro hfil sent
    rw [List.filter_cons] at hfil
    by_cases hq : qualifies now hd
    · rw [if_pos (by simpa using hq)] at hfil
      have hhd : hd = ev := by
        have := List.head_eq_of_cons_eq hfil
        exact this
      have hrest : rest.filter (fun e => qualifies now e) = [] :=
        List.tail_eq_of_cons_eq hfil
      subst hhd
      constructor
      · intro hnot
        unfold runCycle
        rw [if_pos hq, if_neg hnot]
        refine ⟨?_, ?_⟩
        · rw [runCycle_log_nil ok pyh now name rest hrest]
        · exact runCycle_sent_mono ok pyh now name rest _ _
            (List.mem_cons_self _ sent)
      · intro hin
        unfold runCycle
        rw [if_pos hq, if_pos hin]
        exact runCycle_log_nil ok pyh now name rest hrest sent
    · rw [if_neg (by simpa using hq)] at hfil
      constructor
      · intro hnot
        unfold runCycle
        rw [if_neg hq]
        exact (ih hfil sent).1 hnot
      · intro hin
        unfold runCycle
        rw [if_neg hq]
        exact (ih hfil sent).2 hin

theorem runCycle_outcome_indep (ok1 ok2 : String → Bool)
    (pyh : VEvent → Int) (now : Int) (name : String) (feed : List VEvent) :
    ∀ sent : List String,
      (runCycle ok1 pyh now name sent feed).1
          = (runCycle ok2 pyh now name sent feed).1 ∧
        (runCycle ok1 pyh now name sent feed).2.map Prod.fst
          = (runCycle ok2 pyh now name sent feed).2.map Prod.fst := by
  induction feed with
  | nil => exact fun sent => ⟨rfl, rfl⟩
  | cons ev rest ih =>
    intro sent
    unfold runCycle
    split
    · split
      · exact ih sent
      · exact ⟨(ih _).1, by simp [(ih _).2]⟩
    · exact ih sent

/-- C1: within one run, a key already in the sent-events set is never
dispatched by a poll cycle; and for two sequential cycles over an unchanged
feed containing exactly one matching, currently-active event whose key is
not yet in the sent set, the total number of dispatches across both cycles
is exactly one. -/
theorem claim_C1_no_duplicate_dispatch (ok : String → Bool)
    (pyh : VEvent → Int) (now : Int) (name : String) :
    (∀ (sent : List String) (feed : List VEvent) (k : String) (b : Bool),
        k ∈ sent → (k, b) ∉ (runCycle ok pyh now name sent feed).2) ∧
      (∀ (sent0 : List String) (feed : List VEvent) (ev : VEvent),
        feed.filter (fun e => qualifies now e) = [ev] →
        create_event_id pyh ev name ∉ sent0 →
        (runCycle ok pyh now name sent0 feed).2.length
          + (runCycle ok pyh now name
              (runCycle ok pyh now name sent0 feed).1 feed).2.length = 1) := by
  constructor
  · intro sent feed k b hk
    exact runCycle_log_not_sent ok pyh now name feed sent k b hk
  · intro sent0 feed ev hfil hnot
    have h1 := (runCycle_single ok pyh now name ev feed hfil sent0).1 hnot
    have h2 := (runCycle_single ok pyh now name ev feed hfil
      (runCycle ok pyh now name sent0 feed).1).2 h1.2
    rw [h1.1, h2]
    rfl

theorem claim_C1_witness :
    (("k0", true) ∉ (runCycle (fun _ => true) (fun _ => 0) 0 "C" ["k0"]
        [⟨"u1", "Cours AUTONOMIE", some (.dateTime 0), none⟩]).2) ∧
      ((runCycle (fun _ => true) (fun _ => 0) 0 "C" []
          [⟨"u1", "Cours AUTONOMIE", some (.dateTime 0), none⟩]).2.length
        + (runCycle (fun _ => true) (fun _ => 0) 0 "C"
            (runCycle (fun _ => true) (fun _ => 0) 0 "C" []
              [⟨"u1", "Cours AUTONOMIE", some (.dateTime 0), none⟩]).1
            [⟨"u1", "Cours AUTONOMIE", some (.dateTime 0), none⟩]).2.length
        = 1) :=
  ⟨(claim_C1_no_duplicate_dispatch (fun _ => true) (fun _ => 0) 0 "C").1
      ["k0"] _ "k0" true (by decide),
   (claim_C1_no_duplicate_dispatch (fun _ => true) (fun _ => 0) 0 "C").2
      [] _ ⟨"u1", "Cours AUTONOMIE", some (.dateTime 0), none⟩ (by decide)
      (by decide)⟩

/-- C8: the dispatch outcome never influences the cycle. The final sent set
and the sequence of dispatched keys are identical under any two outcome
oracles (in particular an all-failing one), and every key whose dispatch was
attempted, successfully or not, ends up in the sent set. -/
theorem claim_C8_failure_still_recorded (ok1 ok2 : String → Bool)
    (pyh : VEvent → Int) (now : Int) (name : String) (sent : List String)
    (feed : List VEvent) :
    (runCycle ok1 pyh now name sent feed).1
        = (runCycle ok2 pyh now name sent feed).1 ∧
      (runCycle ok1 pyh now name sent feed).2.map Prod.fst
        = (runCycle ok2 pyh now name sent feed).2.map Prod.fst ∧
      (∀ (k : String) (b : Bool),
        (k, b) ∈ (runCycle ok1 pyh now name sent feed).2 →
        k ∈ (runCycle ok1 pyh now name sent feed).1) :=
  ⟨(runCycle_outcome_indep ok1 ok2 pyh now name feed sent).1,
   (runCycle_outcome_indep ok1 ok2 pyh now name feed sent).2,
   fun k b hmem => runCycle_log_in_sent ok1 pyh now name feed sent k b hmem⟩

theorem claim_C8_witness :
    "C_u1" ∈ (runCycle (fun _ => false) (fun _ => 0) 0 "C" []
      [⟨"u1", "Cours AUTONOMIE", some (.dateTime 0), none⟩]).1 :=
  (claim_C8_failure_still_recorded (fun _ => false) (fun _ => true)
      (fun _ => 0) 0 "C" []
      [⟨"u1", "Cours AUTONOMIE", some (.dateTime 0), none⟩]).2.2
    "C_u1" false (by decide)
